import Mathlib

/-!
Verification of `git-log-json.py`: a shallow embedding of the script's
commit-walking, change-classification, line-stat extraction and JSON
report-writing logic, together with theorems settling the specified
properties.

The script's interactions with git (`repo.git.diff` invocations) are
modelled by an oracle supplying the textual output (or failure) of each
diff command; everything downstream of those strings is embedded directly
from the Python source.
-/

namespace GitLogJson

/-- Values a Python variable can hold in the script's stat-extraction code:
`None`, an `int`, or a `str`. -/
inductive PyVal where
  | none : PyVal
  | int : Int → PyVal
  | str : String → PyVal
deriving DecidableEq

/-- The commit metadata the script reads from GitPython: `commit.hexsha`,
`commit.parents`, `commit.author.name`, `commit.author.email`,
`commit.committed_date`, `commit.message`, and the keys of
`commit.stats.files` (the reported changed paths, in iteration order). -/
structure Commit where
  hexsha : String
  parents : List String
  authorName : String
  authorEmail : String
  committedDate : Int
  message : String
  statsFiles : List String
deriving DecidableEq

/-- Line 87 of the script: the empty-tree sentinel sha. -/
def EMPTY_TREE_SHA : String := "4b825dc642cb6eb9a060e54bf8d69288fbee4904"

/-- Auxiliary for `splitChar`: accumulate characters until the separator. -/
def splitCharAux (sep : Char) : List Char → List Char → List String
  | [], acc => [String.mk acc.reverse]
  | c :: cs, acc =>
    if c = sep then String.mk acc.reverse :: splitCharAux sep cs []
    else splitCharAux sep cs (c :: acc)

/-- Python's `s.split(sep)` for a single-character separator: always
returns a nonempty list; `""` splits to `[""]`. -/
def splitChar (sep : Char) (s : String) : List String :=
  splitCharAux sep s.toList []

/-- Line 114: `repo.git.diff('--name-status', ...).split('\t')[0]`. -/
def statusToken (s : String) : String :=
  (splitChar '\t' s).headD ""

/-- The tuple unpacking `lines_added, lines_removed, dummy = out.split('\t')`:
succeeds exactly when the split yields three fields. -/
def unpack3 (s : String) : Option (String × String × String) :=
  match splitChar '\t' s with
  | [a, b, d] => Option.some (a, b, d)
  | _ => Option.none

/-- Auxiliary for `digitsVal`: fold decimal digits, failing on a non-digit. -/
def digitsValAux : List Char → Nat → Option Nat
  | [], acc => Option.some acc
  | c :: cs, acc =>
    if c.isDigit then digitsValAux cs (acc * 10 + (c.toNat - 48))
    else Option.none

/-- Value of a nonempty all-digit character list. -/
def digitsVal : List Char → Option Nat
  | [] => Option.none
  | c :: cs => digitsValAux (c :: cs) 0

/-- Python's `int(s)` on the strings this script feeds it: an optional
sign followed by at least one decimal digit; anything else raises. -/
def parseIntStr (s : String) : Option Int :=
  match s.toList with
  | '-' :: rest => (digitsVal rest).map (fun n => -(n : Int))
  | '+' :: rest => (digitsVal rest).map (fun n => (n : Int))
  | cs => (digitsVal cs).map (fun n => (n : Int))

/-- Python's `s.strip()`: drop whitespace from both ends. -/
def pyStrip (s : String) : String :=
  String.mk (((s.toList.dropWhile Char.isWhitespace).reverse.dropWhile Char.isWhitespace).reverse)

/-- `os.path.basename`: the part of the path after the last slash. -/
def basename (p : String) : String :=
  (splitChar '/' p).getLastD ""

/-- Lines 182/184: the record's extension field,
`'.' + os.path.basename(file).split('.')[-1]`. -/
def fileExtension (p : String) : String :=
  "." ++ (splitChar '.' (basename p)).getLastD ""

/-- Lines 173-180: `try: x = int(x) except: pass` applied to a possibly
unbound variable (`Option.none` models unbound; a `NameError` raised inside
the `try` is swallowed by the bare `except`). -/
def tryInt : Option PyVal → Option PyVal
  | Option.none => Option.none
  | Option.some PyVal.none => Option.some PyVal.none
  | Option.some (PyVal.int n) => Option.some (PyVal.int n)
  | Option.some (PyVal.str s) =>
    match parseIntStr s with
    | Option.some n => Option.some (PyVal.int n)
    | Option.none => Option.some (PyVal.str s)

/-- One element of the output array (lines 182/184), with `date` kept as
the raw commit timestamp (its ISO-8601 rendering is not modelled). -/
structure ChangeRecord where
  revision : String
  author : String
  email : String
  date : Int
  message : String
  modified : String
  extension : String
  status : String
  lines_added : PyVal
  lines_removed : PyVal
deriving DecidableEq

/-- The loop-carried Python variables `lines_added` / `lines_removed`;
`Option.none` means the variable is not yet bound. -/
structure RunState where
  la : Option PyVal
  lr : Option PyVal
deriving DecidableEq

/-- The ways a run can die: the name-status diff raising (printed with
baseline, commit and path, then re-raised, lines 113-117), an uncaught
failure of the strict numstat extraction (command error or unpacking
`ValueError`), or a `NameError` on an unbound stat variable at the
`json.dumps` call. -/
inductive Fatal where
  | diffError : String → String → String → Fatal
  | numstatFatal : String → String → String → Fatal
  | unbound : String → Fatal
deriving DecidableEq

/-- The git subprocess interface the script drives: the output (or
failure) of `git diff --name-status prev..sha -- file` and
`git diff --numstat prev..sha -- file`. -/
structure GitOracle where
  nameStatus : String → String → String → Except Unit String
  numstat : String → String → String → Except Unit String

/-- Build the output record for one file of one commit (lines 182/184). -/
def mkRecord (c : Commit) (file status : String) (la lr : PyVal) : ChangeRecord :=
  { revision := c.hexsha
    author := c.authorName
    email := c.authorEmail
    date := c.committedDate
    message := pyStrip c.message
    modified := file
    extension := fileExtension file
    status := status
    lines_added := la
    lines_removed := lr }

/-- Lines 134/138/145/152: run the numstat diff and unpack it, with no
`try` around the call — any failure propagates and kills the run. -/
def numstatStrict (oracle : GitOracle) (prevSha : String) (c : Commit) (file status : String) :
    Except Fatal (String × Option PyVal × Option PyVal) :=
  match oracle.numstat prevSha c.hexsha file with
  | Except.error _ => Except.error (Fatal.numstatFatal prevSha c.hexsha file)
  | Except.ok out =>
    match unpack3 out with
    | Option.some (a, b, _) =>
      Except.ok (status, Option.some (PyVal.str a), Option.some (PyVal.str b))
    | Option.none => Except.error (Fatal.numstatFatal prevSha c.hexsha file)

/-- Lines 118-130: the empty-status branch, whose numstat call sits inside
`try: ... except:` that falls back to `None` counts. -/
def numstatLenient (oracle : GitOracle) (prevSha : String) (c : Commit) (file : String) :
    Except Fatal (String × Option PyVal × Option PyVal) :=
  match oracle.numstat prevSha c.hexsha file with
  | Except.error _ => Except.ok ("Added", Option.some PyVal.none, Option.some PyVal.none)
  | Except.ok out =>
    match unpack3 out with
    | Option.some (a, b, _) =>
      Except.ok ("Added", Option.some (PyVal.str a), Option.some (PyVal.str b))
    | Option.none => Except.ok ("Added", Option.some PyVal.none, Option.some PyVal.none)

/-- Lines 118-172: the `if status == '' ... elif ...` chain on the first
tab-field of the name-status output. A token outside the handled set falls
through, leaving `status` as the raw token and the stat variables at their
loop-carried values. -/
def classifyToken (oracle : GitOracle) (prevSha : String) (c : Commit) (file tk : String)
    (st : RunState) : Except Fatal (String × Option PyVal × Option PyVal) :=
  if tk = "" then numstatLenient oracle prevSha c file
  else if tk = "A" then numstatStrict oracle prevSha c file "Added"
  else if tk = "C" then numstatStrict oracle prevSha c file "Copied"
  else if tk = "D" then numstatStrict oracle prevSha c file "Deleted"
  else if tk = "M" then numstatStrict oracle prevSha c file "Modified"
  else if tk = "R" then
    Except.ok ("Renamed", Option.some (PyVal.int 0), Option.some (PyVal.int 0))
  else if tk = "T" then
    Except.ok ("Type (mode) changed", Option.some (PyVal.int 0), Option.some (PyVal.int 0))
  else if tk = "U" then
    Except.ok ("Unmerged", Option.some (PyVal.int 0), Option.some (PyVal.int 0))
  else if tk = "X" then
    Except.ok ("Unknown", Option.some PyVal.none, Option.some PyVal.none)
  else if tk = "B" then
    Except.ok ("Broken pairing", Option.some PyVal.none, Option.some PyVal.none)
  else Except.ok (tk, st.la, st.lr)

/-- Lines 113-117 followed by the classification chain: run the
name-status diff (a raised command error is fatal, with the baseline,
commit and path printed) and classify its first tab-field. -/
def classifyFile (oracle : GitOracle) (prevSha : String) (c : Commit) (file : String)
    (st : RunState) : Except Fatal (String × Option PyVal × Option PyVal) :=
  match oracle.nameStatus prevSha c.hexsha file with
  | Except.error _ => Except.error (Fatal.diffError prevSha c.hexsha file)
  | Except.ok s => classifyToken oracle prevSha c file (statusToken s) st

/-- The `json.dumps` call evaluates `lines_added` first, then
`lines_removed`; an unbound one raises `NameError` there, outside any
`try`. On success the record is written and the coerced values remain the
loop-carried state. -/
def emitCheck (c : Commit) (file status : String) :
    Option PyVal → Option PyVal → Except Fatal (ChangeRecord × RunState)
  | Option.none, _ => Except.error (Fatal.unbound "lines_added")
  | Option.some _, Option.none => Except.error (Fatal.unbound "lines_removed")
  | Option.some a, Option.some b =>
    Except.ok (mkRecord c file status a b, ⟨Option.some a, Option.some b⟩)

/-- Process one reported file of one commit: classify, coerce the counts
with `int()` (lines 173-180), and emit the record. -/
def processFile (oracle : GitOracle) (prevSha : String) (c : Commit) (file : String)
    (st : RunState) : Except Fatal (ChangeRecord × RunState) :=
  match classifyFile oracle prevSha c file st with
  | Except.error e => Except.error e
  | Except.ok (status, la0, lr0) => emitCheck c file status (tryInt la0) (tryInt lr0)

/-- Lines 104-186: process every file reported by `commit.stats.files`,
threading the loop-carried stat variables. -/
def processCommitFiles (oracle : GitOracle) (prevSha : String) (c : Commit) :
    List String → RunState → Except Fatal (List ChangeRecord × RunState)
  | [], st => Except.ok ([], st)
  | f :: fs, st =>
    match processFile oracle prevSha c f st with
    | Except.error e => Except.error e
    | Except.ok (r, st1) =>
      match processCommitFiles oracle prevSha c fs st1 with
      | Except.error e => Except.error e
      | Except.ok (rs, st2) => Except.ok (r :: rs, st2)

/-- The threading of `previous_commit_sha` (initialised at line 98,
updated at line 188): pair each commit, in processing order, with the
baseline sha its diffs are computed against. -/
def baselineOf : List Commit → String → List (String × Commit)
  | [], _ => []
  | c :: cs, prev => (prev, c) :: baselineOf cs c.hexsha

/-- The (baseline, commit) pairs of a run, where the commit list is given
newest-first as `iter_commits` yields it and the loop walks `reversed(commits)`. -/
def baselinePairs (commitsNewestFirst : List Commit) : List (String × Commit) :=
  baselineOf commitsNewestFirst.reverse EMPTY_TREE_SHA

/-- Process a list of (baseline, commit) pairs in order, collecting the
emitted records. -/
def runPairs (oracle : GitOracle) :
    List (String × Commit) → RunState → Except Fatal (List ChangeRecord × RunState)
  | [], st => Except.ok ([], st)
  | (prev, c) :: ps, st =>
    match processCommitFiles oracle prev c c.statsFiles st with
    | Except.error e => Except.error e
    | Except.ok (rs, st1) =>
      match runPairs oracle ps st1 with
      | Except.error e => Except.error e
      | Except.ok (rs2, st2) => Except.ok (rs ++ rs2, st2)

/-- The whole extraction loop (lines 98-188): walk the commits oldest
first, diffing each against the previously processed commit (the empty
tree for the first), starting with both stat variables unbound. -/
def run (oracle : GitOracle) (commitsNewestFirst : List Commit) :
    Except Fatal (List ChangeRecord × RunState) :=
  runPairs oracle (baselinePairs commitsNewestFirst) ⟨Option.none, Option.none⟩

/-- Lines 106-109: what is written immediately before a record's JSON
text — nothing for the first record, otherwise a comma (and a newline in
debug mode). -/
def writeEntry (debug firstEntry : Bool) (r : String) : String :=
  (if firstEntry then "" else if debug then ",\n" else ",") ++ r

/-- The record-writing loop, threading the `first_entry` flag (lines
82, 106-109, 182-186). -/
def writeLoop (debug : Bool) : Bool → List String → String
  | _, [] => ""
  | firstEntry, r :: rs => writeEntry debug firstEntry r ++ writeLoop debug false rs

/-- Lines 94-97 and 189-193: the full output text around the record loop —
opening bracket, records with separators, closing bracket, with the extra
newlines of debug mode. -/
def writeArray (debug : Bool) (recs : List String) : String :=
  "[" ++ (if debug then "\n" else "")
    ++ writeLoop debug true recs
    ++ (if debug then "\n" else "") ++ "]" ++ (if debug then "\n" else "")

/-- Reference join used to state the writer's correctness: the records
separated by exactly one separator, with no leading or trailing one. -/
def joinSep (sep : String) : List String → String
  | [] => ""
  | [r] => r
  | r :: r2 :: rs => r ++ sep ++ joinSep sep (r2 :: rs)

/-- The state of `HEAD` as the script observes it: on a branch (with its
name) or detached, in which case reading `repo.active_branch` raises
`TypeError`. -/
inductive HeadState where
  | onBranch : String → HeadState
  | detached : HeadState
deriving DecidableEq

/-- Outcome of the branch-resolution block, lines 56-77. -/
inductive BranchOutcome where
  | ok : String → BranchOutcome
  | exit3 : BranchOutcome
  | typeError : BranchOutcome
deriving DecidableEq

/-- Lines 56-77: with no `--branch`, read the active branch (raising on a
detached `HEAD`); with `--branch main`, accept the first reference named
`main` or `master`; otherwise require an exactly matching reference name,
exiting with code 3 when none is found. -/
def resolveBranch (requested : Option String) (refs : List String) (head : HeadState) :
    BranchOutcome :=
  match requested with
  | Option.none =>
    match head with
    | HeadState.onBranch n => BranchOutcome.ok n
    | HeadState.detached => BranchOutcome.typeError
  | Option.some req =>
    if req = "main" then
      match refs.find? (fun r => r == "main" || r == "master") with
      | Option.some r => BranchOutcome.ok r
      | Option.none => BranchOutcome.exit3
    else
      match refs.find? (fun r => r == req) with
      | Option.some _ => BranchOutcome.ok req
      | Option.none => BranchOutcome.exit3

/-- A value is in post-`int()` form: `None`, an integer, or a string that
does not parse as an integer (so the coercion left it alone). -/
def coerced : PyVal → Bool
  | PyVal.str s => (parseIntStr s).isNone
  | _ => true

/-- The reported (commit hash, changed path) pairs, in processing order:
one per path of `commit.stats.files` of each commit. -/
def reportedPairs : List Commit → List (String × String)
  | [] => []
  | c :: cs => c.statsFiles.map (fun f => (c.hexsha, f)) ++ reportedPairs cs

theorem tryInt_coerced (v : Option PyVal) (w : PyVal)
    (h : tryInt v = Option.some w) : coerced w = true := by
  cases v with
  | none => simp [tryInt] at h
  | some u =>
    cases u with
    | none =>
      simp only [tryInt, Option.some.injEq] at h
      subst h; rfl
    | int n =>
      simp only [tryInt, Option.some.injEq] at h
      subst h; rfl
    | str s =>
      cases hp : parseIntStr s with
      | none =>
        simp only [tryInt, hp, Option.some.injEq] at h
        subst h
        simp [coerced, hp]
      | some n =>
        simp only [tryInt, hp, Option.some.injEq] at h
        subst h; rfl

theorem tryInt_of_coerced (v : PyVal) (h : coerced v = true) :
    tryInt (Option.some v) = Option.some v := by
  cases v with
  | none => rfl
  | int n => rfl
  | str s =>
    simp only [coerced, Option.isNone_iff_eq_none] at h
    simp only [tryInt, h]

theorem tryInt_some (v : PyVal) : ∃ w, tryInt (Option.some v) = Option.some w := by
  cases v with
  | none => exact ⟨PyVal.none, rfl⟩
  | int n => exact ⟨PyVal.int n, rfl⟩
  | str s =>
    cases hp : parseIntStr s with
    | none => exact ⟨PyVal.str s, by simp only [tryInt, hp]⟩
    | some n => exact ⟨PyVal.int n, by simp only [tryInt, hp]⟩

theorem processFile_ok_fields {oracle : GitOracle} {prevSha : String} {c : Commit}
    {file : String} {st : RunState} {rec : ChangeRecord} {st2 : RunState}
    (h : processFile oracle prevSha c file st = Except.ok (rec, st2)) :
    rec.revision = c.hexsha ∧ rec.modified = file ∧ rec.extension = fileExtension file ∧
      st2 = ⟨Option.some rec.lines_added, Option.some rec.lines_removed⟩ ∧
      coerced rec.lines_added = true ∧ coerced rec.lines_removed = true := by
  unfold processFile at h
  split at h
  · exact absurd h (by simp)
  · rename_i status la0 lr0 heq
    cases ha : tryInt la0 with
    | none => rw [ha] at h; simp [emitCheck] at h
    | some a =>
      cases hb : tryInt lr0 with
      | none => rw [ha, hb] at h; simp [emitCheck] at h
      | some b =>
        rw [ha, hb] at h
        simp only [emitCheck, Except.ok.injEq, Prod.mk.injEq] at h
        obtain ⟨hrec, hst⟩ := h
        subst hrec
        subst hst
        exact ⟨rfl, rfl, rfl, rfl, tryInt_coerced _ _ ha, tryInt_coerced _ _ hb⟩

theorem processCommitFiles_ok_map {oracle : GitOracle} {prevSha : String} {c : Commit} :
    ∀ (files : List String) (st : RunState) (recs : List ChangeRecord) (st2 : RunState),
      processCommitFiles oracle prevSha c files st = Except.ok (recs, st2) →
      recs.map (fun r => (r.revision, r.modified)) = files.map (fun f => (c.hexsha, f)) := by
  intro files
  induction files with
  | nil =>
    intro st recs st2 h
    simp only [processCommitFiles, Except.ok.injEq, Prod.mk.injEq] at h
    rw [← h.1]
    simp
  | cons f fs ih =>
    intro st recs st2 h
    unfold processCommitFiles at h
    split at h
    · exact absurd h (by simp)
    · rename_i r st1 heq1
      split at h
      · exact absurd h (by simp)
      · rename_i rs st3 heq2
        simp only [Except.ok.injEq, Prod.mk.injEq] at h
        rw [← h.1]
        obtain ⟨h1, h2, _, _, _, _⟩ := processFile_ok_fields heq1
        simp only [List.map_cons, h1, h2]
        rw [ih st1 rs st3 heq2]

theorem runPairs_ok_map {oracle : GitOracle} :
    ∀ (cs : List Commit) (prev : String) (st : RunState) (recs : List ChangeRecord)
      (st2 : RunState),
      runPairs oracle (baselineOf cs prev) st = Except.ok (recs, st2) →
      recs.map (fun r => (r.revision, r.modified)) = reportedPairs cs := by
  intro cs
  induction cs with
  | nil =>
    intro prev st recs st2 h
    simp only [baselineOf, runPairs, Except.ok.injEq, Prod.mk.injEq] at h
    rw [← h.1]
    simp [reportedPairs]
  | cons c cs ih =>
    intro prev st recs st2 h
    unfold baselineOf runPairs at h
    split at h
    · exact absurd h (by simp)
    · rename_i rs st1 heq1
      split at h
      · exact absurd h (by simp)
      · rename_i rs2 st3 heq2
        simp only [Except.ok.injEq, Prod.mk.injEq] at h
        rw [← h.1]
        simp only [reportedPairs, List.map_append]
        rw [processCommitFiles_ok_map c.statsFiles st rs st1 heq1]
        rw [ih c.hexsha st1 rs2 st3 heq2]

theorem baselineOf_eq_zip :
    ∀ (cs : List Commit) (prev : String),
      baselineOf cs prev = List.zip (prev :: cs.map Commit.hexsha) cs := by
  intro cs
  induction cs with
  | nil => intro prev; rfl
  | cons c cs ih =>
    intro prev
    simp only [baselineOf, List.map_cons, List.zip_cons_cons, List.cons.injEq]
    exact ⟨trivial, ih c.hexsha⟩

theorem writeLoop_false_join (debug : Bool) :
    ∀ (rs : List String) (r : String),
      writeLoop debug false (r :: rs) =
        (if debug then ",\n" else ",") ++ joinSep (if debug then ",\n" else ",") (r :: rs) := by
  intro rs
  induction rs with
  | nil =>
    intro r
    simp [writeLoop, writeEntry, joinSep]
  | cons r2 rs ih =>
    intro r
    show writeEntry debug false r ++ writeLoop debug false (r2 :: rs) = _
    rw [ih r2]
    simp [writeEntry, joinSep, String.append_assoc]

theorem writeLoop_true_join (debug : Bool) (rs : List String) :
    writeLoop debug true rs = joinSep (if debug then ",\n" else ",") rs := by
  cases rs with
  | nil => rfl
  | cons r rs =>
    cases rs with
    | nil => simp [writeLoop, writeEntry, joinSep]
    | cons r2 rs =>
      show writeEntry debug true r ++ writeLoop debug false (r2 :: rs) = _
      rw [writeLoop_false_join debug rs r2]
      simp [writeEntry, joinSep, String.append_assoc]

theorem classifyFile_ok_token {oracle : GitOracle} {prevSha : String} {c : Commit}
    {file : String} {st : RunState} {s : String}
    (hs : oracle.nameStatus prevSha c.hexsha file = Except.ok s) :
    classifyFile oracle prevSha c file st =
      classifyToken oracle prevSha c file (statusToken s) st := by
  unfold classifyFile
  rw [hs]

theorem processFile_empty_token {oracle : GitOracle} {prevSha : String} {c : Commit}
    {file : String} {st : RunState} {s : String}
    (hs : oracle.nameStatus prevSha c.hexsha file = Except.ok s)
    (htok : statusToken s = "") :
    ∃ la lr, processFile oracle prevSha c file st =
      Except.ok (mkRecord c file "Added" la lr, ⟨Option.some la, Option.some lr⟩) := by
  unfold processFile
  rw [classifyFile_ok_token hs, htok]
  cases hn : oracle.numstat prevSha c.hexsha file with
  | error e =>
    refine ⟨PyVal.none, PyVal.none, ?_⟩
    simp [classifyToken, numstatLenient, hn, emitCheck, tryInt]
  | ok out =>
    cases hu : unpack3 out with
    | none =>
      refine ⟨PyVal.none, PyVal.none, ?_⟩
      simp [classifyToken, numstatLenient, hn, hu, emitCheck, tryInt]
    | some t =>
      obtain ⟨a, b, d⟩ := t
      obtain ⟨wa, hwa⟩ := tryInt_some (PyVal.str a)
      obtain ⟨wb, hwb⟩ := tryInt_some (PyVal.str b)
      refine ⟨wa, wb, ?_⟩
      simp [classifyToken, numstatLenient, hn, hu, hwa, hwb, emitCheck]

theorem processFile_A_token {oracle : GitOracle} {prevSha : String} {c : Commit}
    {file : String} {st : RunState} {s : String}
    (hs : oracle.nameStatus prevSha c.hexsha file = Except.ok s)
    (htok : statusToken s = "A")
    (hnum : ∃ out a b d, oracle.numstat prevSha c.hexsha file = Except.ok out ∧
      unpack3 out = Option.some (a, b, d)) :
    ∃ la lr, processFile oracle prevSha c file st =
      Except.ok (mkRecord c file "Added" la lr, ⟨Option.some la, Option.some lr⟩) := by
  obtain ⟨out, a, b, d, hn, hu⟩ := hnum
  obtain ⟨wa, hwa⟩ := tryInt_some (PyVal.str a)
  obtain ⟨wb, hwb⟩ := tryInt_some (PyVal.str b)
  refine ⟨wa, wb, ?_⟩
  unfold processFile
  rw [classifyFile_ok_token hs, htok]
  simp [classifyToken, numstatStrict, hn, hu, hwa, hwb, emitCheck]

theorem processFiles_all_added (oracle : GitOracle) (c : Commit) :
    ∀ (files : List String) (st : RunState),
      (∀ f ∈ files, ∃ s, oracle.nameStatus EMPTY_TREE_SHA c.hexsha f = Except.ok s ∧
        (statusToken s = "A" ∨ statusToken s = "")) →
      (∀ f ∈ files, ∃ out a b d, oracle.numstat EMPTY_TREE_SHA c.hexsha f = Except.ok out ∧
        unpack3 out = Option.some (a, b, d)) →
      ∃ recs st2, processCommitFiles oracle EMPTY_TREE_SHA c files st = Except.ok (recs, st2) ∧
        recs.length = files.length ∧ ∀ r ∈ recs, r.status = "Added" := by
  intro files
  induction files with
  | nil =>
    intro st _ _
    exact ⟨[], st, rfl, rfl, by simp⟩
  | cons f fs ih =>
    intro st hA hN
    obtain ⟨s, hs, htok⟩ := hA f (List.mem_cons_self f fs)
    have hpf : ∃ la lr, processFile oracle EMPTY_TREE_SHA c f st =
        Except.ok (mkRecord c f "Added" la lr, ⟨Option.some la, Option.some lr⟩) := by
      cases htok with
      | inl hA' => exact processFile_A_token hs hA' (hN f (List.mem_cons_self f fs))
      | inr hE' => exact processFile_empty_token hs hE'
    obtain ⟨la, lr, hpf⟩ := hpf
    obtain ⟨recs, st2, h1, h2, h3⟩ :=
      ih ⟨Option.some la, Option.some lr⟩
        (fun g hg => hA g (List.mem_cons_of_mem f hg))
        (fun g hg => hN g (List.mem_cons_of_mem f hg))
    refine ⟨mkRecord c f "Added" la lr :: recs, st2, ?_, ?_, ?_⟩
    · simp only [processCommitFiles, hpf, h1]
    · simp [h2]
    · intro r hr
      cases List.mem_cons.mp hr with
      | inl hr => rw [hr]; rfl
      | inr hr => exact h3 r hr

/-- C1 (amended): the diff baseline paired with each processed commit is
the hash of the previously processed commit in the oldest-first walk —
the empty-tree sentinel exactly for the first commit processed — with the
commit's parents playing no role. -/
theorem baseline_is_previous_walked_commit (commitsNewestFirst : List Commit) :
    baselinePairs commitsNewestFirst =
      List.zip (EMPTY_TREE_SHA :: commitsNewestFirst.reverse.map Commit.hexsha)
        commitsNewestFirst.reverse :=
  baselineOf_eq_zip commitsNewestFirst.reverse EMPTY_TREE_SHA

def rootA : Commit := ⟨"aaa", [], "u", "u@x", 0, "m", ["f"]⟩

def childB : Commit := ⟨"bbb", ["aaa"], "u", "u@x", 1, "m", ["f"]⟩

def childC : Commit := ⟨"ccc", ["aaa"], "u", "u@x", 2, "m", ["f"]⟩

/-- C1 counterexample: in a history with two children of one root (walked
oldest-first as rootA, childB, childC), childC's only parent is rootA
("aaa"), yet the baseline the loop pairs with childC is childB's hash
"bbb": the baseline is not the first parent. -/
theorem baseline_not_first_parent_counterexample :
    baselinePairs [childC, childB, rootA] =
      [(EMPTY_TREE_SHA, rootA), ("aaa", childB), ("bbb", childC)] ∧
    childC.parents = ["aaa"] ∧ ("bbb" : String) ≠ "aaa" := by
  refine ⟨rfl, rfl, ?_⟩
  decide

def oracleC2 : GitOracle :=
  ⟨fun base _ _ => if base = EMPTY_TREE_SHA then Except.ok "A\tf" else Except.ok "",
   fun base _ _ => if base = EMPTY_TREE_SHA then Except.ok "1\t0\tf" else Except.ok ""⟩

def commitC2a : Commit := ⟨"c1", [], "u", "u@x", 0, "m", ["f"]⟩

def commitC2b : Commit := ⟨"c2", ["c1"], "u", "u@x", 1, "m", ["f"]⟩

/-- C2 counterexample: for the non-root commit c2 the name-status diff
resolves no entry for path "f" (empty output), yet the run does not abort:
it classifies the path Added, emits a record for it (with null counts
after the numstat fallback), and continues to completion. -/
theorem unresolved_path_not_fatal_counterexample :
    run oracleC2 [commitC2b, commitC2a] =
      Except.ok ([mkRecord commitC2a "f" "Added" (PyVal.int 1) (PyVal.int 0),
                  mkRecord commitC2b "f" "Added" PyVal.none PyVal.none],
        ⟨Option.some PyVal.none, Option.some PyVal.none⟩) := rfl

/-- C2 (amended): the run aborts — with the baseline, commit hash and path
reported — exactly when the name-status diff invocation itself raises; a
reported path whose diff output is empty is not treated as fatal: it is
classified Added and a record for it is still emitted. -/
theorem diff_failure_abort_behaviour (oracle : GitOracle) (prevSha : String) (c : Commit)
    (file : String) (st : RunState) :
    (oracle.nameStatus prevSha c.hexsha file = Except.error () →
      processFile oracle prevSha c file st =
        Except.error (Fatal.diffError prevSha c.hexsha file)) ∧
    (∀ s, oracle.nameStatus prevSha c.hexsha file = Except.ok s → statusToken s = "" →
      ∃ la lr, processFile oracle prevSha c file st =
        Except.ok (mkRecord c file "Added" la lr, ⟨Option.some la, Option.some lr⟩)) := by
  constructor
  · intro h
    simp [processFile, classifyFile, h]
  · intro s hs htok
    exact processFile_empty_token hs htok

def oracleC2w : GitOracle :=
  ⟨fun _ _ _ => Except.error (), fun _ _ _ => Except.ok ""⟩

def commitC2w : Commit := ⟨"c9f", [], "u", "u@x", 0, "m", ["f"]⟩

/-- C2 witness: a failing diff invocation concretely aborts the file's
processing with the baseline, commit hash and path. -/
theorem diff_failure_abort_behaviour_witness :
    processFile oracleC2w "p0" commitC2w "f" ⟨Option.none, Option.none⟩ =
      Except.error (Fatal.diffError "p0" "c9f" "f") :=
  (diff_failure_abort_behaviour oracleC2w "p0" commitC2w "f" ⟨Option.none, Option.none⟩).1 rfl

/-- C3: when the run completes, the emitted records correspond one-to-one
and in order with the (commit hash, changed path) pairs reported by the
VCS collaborator for the walked commits: no reported path is skipped and
none is duplicated. -/
theorem records_match_reported_paths (oracle : GitOracle)
    (commitsNewestFirst : List Commit) (recs : List ChangeRecord) (st2 : RunState)
    (h : run oracle commitsNewestFirst = Except.ok (recs, st2)) :
    recs.map (fun r => (r.revision, r.modified)) = reportedPairs commitsNewestFirst.reverse :=
  runPairs_ok_map commitsNewestFirst.reverse EMPTY_TREE_SHA ⟨Option.none, Option.none⟩ recs st2 h

def oracleC3 : GitOracle :=
  ⟨fun _ _ _ => Except.ok "A\tg.py", fun _ _ _ => Except.ok "3\t1\tg.py"⟩

def commitC3 : Commit := ⟨"c3", [], "alice", "a@x", 0, "msg", ["g.py"]⟩

/-- C3 witness: a concrete completed run whose single record matches the
single reported (commit, path) pair. -/
theorem records_match_reported_paths_witness :
    [mkRecord commitC3 "g.py" "Added" (PyVal.int 3) (PyVal.int 1)].map
        (fun r => (r.revision, r.modified)) =
      reportedPairs [commitC3].reverse :=
  records_match_reported_paths oracleC3 [commitC3]
    [mkRecord commitC3 "g.py" "Added" (PyVal.int 3) (PyVal.int 1)]
    ⟨Option.some (PyVal.int 3), Option.some (PyVal.int 1)⟩ rfl

/-- C4 (amended): for a history consisting of a single root commit whose
N reported files the empty-tree diff reports as "A" (or empty) with
well-formed numstat output, the run succeeds with exactly N records, all
with status "Added", computed against the empty-tree baseline; but only
the first processed commit is diffed against the empty tree, so files of
a later root commit need not be classified Added. -/
theorem single_root_commit_all_added (oracle : GitOracle) (c : Commit)
    (hA : ∀ f ∈ c.statsFiles, ∃ s, oracle.nameStatus EMPTY_TREE_SHA c.hexsha f = Except.ok s ∧
      (statusToken s = "A" ∨ statusToken s = ""))
    (hN : ∀ f ∈ c.statsFiles, ∃ out a b d,
      oracle.numstat EMPTY_TREE_SHA c.hexsha f = Except.ok out ∧
      unpack3 out = Option.some (a, b, d)) :
    ∃ recs st2, run oracle [c] = Except.ok (recs, st2) ∧
      recs.length = c.statsFiles.length ∧ ∀ r ∈ recs, r.status = "Added" := by
  obtain ⟨recs, st2, h1, h2, h3⟩ :=
    processFiles_all_added oracle c c.statsFiles ⟨Option.none, Option.none⟩ hA hN
  refine ⟨recs, st2, ?_, h2, h3⟩
  show runPairs oracle (baselineOf [c] EMPTY_TREE_SHA) ⟨Option.none, Option.none⟩ = _
  unfold baselineOf runPairs
  rw [h1]
  simp [runPairs]

def oracleC4 : GitOracle :=
  ⟨fun base _ _ => if base = EMPTY_TREE_SHA then Except.ok "A\tf" else Except.ok "M\tf",
   fun _ _ _ => Except.ok "2\t2\tf"⟩

def rootC4a : Commit := ⟨"r1", [], "u", "u@x", 0, "m", ["f"]⟩

def rootC4b : Commit := ⟨"r2", [], "u", "u@x", 1, "m", ["f"]⟩

/-- C4 counterexample: with two root commits in the walked history, the
second root commit rootC4b (zero parents) is diffed against the first
processed commit rather than the empty tree, and its file is classified
"Modified", not "Added". -/
theorem root_commit_not_added_counterexample :
    run oracleC4 [rootC4b, rootC4a] =
      Except.ok ([mkRecord rootC4a "f" "Added" (PyVal.int 2) (PyVal.int 2),
                  mkRecord rootC4b "f" "Modified" (PyVal.int 2) (PyVal.int 2)],
        ⟨Option.some (PyVal.int 2), Option.some (PyVal.int 2)⟩) ∧
      rootC4b.parents = [] ∧ ("Modified" : String) ≠ "Added" := by
  refine ⟨rfl, rfl, ?_⟩
  decide

def oracleC4w : GitOracle :=
  ⟨fun _ _ _ => Except.ok "A\tq.c", fun _ _ _ => Except.ok "5\t0\tq.c"⟩

def commitC4w : Commit := ⟨"c4w", [], "u", "u@x", 0, "m", ["q.c"]⟩

/-- C4 witness: a concrete single-root-commit run emitting exactly one
record with status "Added". -/
theorem single_root_commit_all_added_witness :
    ∃ recs st2, run oracleC4w [commitC4w] = Except.ok (recs, st2) ∧
      recs.length = commitC4w.statsFiles.length ∧ ∀ r ∈ recs, r.status = "Added" := by
  apply single_root_commit_all_added oracleC4w commitC4w
  · intro f hf
    simp only [commitC4w, List.mem_singleton] at hf
    subst hf
    exact ⟨"A\tq.c", rfl, Or.inl rfl⟩
  · intro f hf
    simp only [commitC4w, List.mem_singleton] at hf
    subst hf
    exact ⟨"5\t0\tq.c", "5", "0", "q.c", rfl, rfl⟩

/-- C5 counterexample: requesting branch "main" in a repository whose
references hold only "master" does not exit with code 3 — the code
silently resolves to "master" — and with no branch requested on a
detached HEAD the code raises TypeError (there is no exit-code-4 path). -/
theorem branch_resolution_counterexample :
    resolveBranch (Option.some "main") ["master"] HeadState.detached =
      BranchOutcome.ok "master" ∧
    ("main" : String) ∉ (["master"] : List String) ∧
    resolveBranch Option.none ["master"] HeadState.detached = BranchOutcome.typeError := by
  refine ⟨rfl, ?_, rfl⟩
  decide

/-- C5 (amended): exit code 3 is produced exactly when an explicitly
requested branch cannot be resolved, where a request for "main" is also
satisfied by a reference named "master"; when no branch is given and the
repository is detached, reading the active branch raises an unhandled
TypeError rather than exiting with code 4. -/
theorem branch_resolution_behaviour (req : String) (refs : List String) (head : HeadState) :
    (resolveBranch (Option.some req) refs head = BranchOutcome.exit3 ↔
      (if req = "main" then "main" ∉ refs ∧ "master" ∉ refs else req ∉ refs)) ∧
    resolveBranch Option.none refs HeadState.detached = BranchOutcome.typeError := by
  constructor
  · show (if req = "main" then _ else _) = BranchOutcome.exit3 ↔ _
    by_cases hr : req = "main"
    · rw [if_pos hr, if_pos hr]
      cases hf : List.find? (fun r => r == "main" || r == "master") refs with
      | none =>
        simp only [hf]
        constructor
        · intro _
          rw [List.find?_eq_none] at hf
          constructor
          · intro hm
            have := hf "main" hm
            simp at this
          · intro hm
            have := hf "master" hm
            simp at this
        · intro _
          trivial
      | some r =>
        simp only [hf]
        constructor
        · intro h
          exact absurd h (by simp)
        · intro hmem
          exfalso
          have hr2 := List.find?_some hf
          have hmem2 := List.mem_of_find?_eq_some hf
          simp only [Bool.or_eq_true, beq_iff_eq] at hr2
          cases hr2 with
          | inl h1 => exact hmem.1 (h1 ▸ hmem2)
          | inr h1 => exact hmem.2 (h1 ▸ hmem2)
    · rw [if_neg hr, if_neg hr]
      cases hf : List.find? (fun r => r == req) refs with
      | none =>
        simp only [hf]
        constructor
        · intro _
          rw [List.find?_eq_none] at hf
          intro hm
          have := hf req hm
          simp at this
        · intro _
          trivial
      | some r =>
        simp only [hf]
        constructor
        · intro h
          exact absurd h (by simp)
        · intro hmem
          exfalso
          have hr2 := List.find?_some hf
          have hmem2 := List.mem_of_find?_eq_some hf
          simp only [beq_iff_eq] at hr2
          exact hmem (hr2 ▸ hmem2)
  · rfl

def oracleC6 : GitOracle :=
  ⟨fun _ _ _ => Except.ok "M\tbin.dat", fun _ _ _ => Except.ok "-\t-\tbin.dat"⟩

def commitC6 : Commit := ⟨"c6", [], "u", "u@x", 0, "m", ["bin.dat"]⟩

/-- C6 counterexample: a binary file's numstat counts "-" do not parse as
integers, yet they are emitted as the raw string "-" — present but
neither a non-negative integer nor absent. -/
theorem nonnumeric_count_kept_counterexample :
    run oracleC6 [commitC6] =
      Except.ok ([mkRecord commitC6 "bin.dat" "Modified" (PyVal.str "-") (PyVal.str "-")],
        ⟨Option.some (PyVal.str "-"), Option.some (PyVal.str "-")⟩) ∧
    PyVal.str "-" ≠ PyVal.none := by
  refine ⟨rfl, ?_⟩
  decide

/-- C6 (amended): the `int()` coercion never raises and the record is
always still emitted, but a non-numeric count is left as the raw value
rather than reported absent: every emitted count is either null, an
integer, or a string that fails integer parsing. -/
theorem emitted_counts_are_coerced (oracle : GitOracle) (prevSha : String) (c : Commit)
    (file : String) (st : RunState) (rec : ChangeRecord) (st2 : RunState)
    (h : processFile oracle prevSha c file st = Except.ok (rec, st2)) :
    coerced rec.lines_added = true ∧ coerced rec.lines_removed = true :=
  ⟨(processFile_ok_fields h).2.2.2.2.1, (processFile_ok_fields h).2.2.2.2.2⟩

/-- C6 witness: the record of the binary-file scenario concretely
satisfies the coercion invariant (its "-" string fails integer parsing). -/
theorem emitted_counts_are_coerced_witness :
    coerced (mkRecord commitC6 "bin.dat" "Modified" (PyVal.str "-") (PyVal.str "-")).lines_added
        = true ∧
      coerced (mkRecord commitC6 "bin.dat" "Modified"
        (PyVal.str "-") (PyVal.str "-")).lines_removed = true :=
  emitted_counts_are_coerced oracleC6 EMPTY_TREE_SHA commitC6 "bin.dat"
    ⟨Option.none, Option.none⟩ _
    ⟨Option.some (PyVal.str "-"), Option.some (PyVal.str "-")⟩ rfl

/-- C7: a file whose name-status token is R, T or U is emitted with zero
for both counts (statuses "Renamed", "Type (mode) changed", "Unmerged"),
and one whose token is X or B is emitted with null for both counts
(statuses "Unknown", "Broken pairing"). -/
theorem fixed_count_statuses (oracle : GitOracle) (prevSha : String) (c : Commit)
    (file : String) (st : RunState) (s : String)
    (hs : oracle.nameStatus prevSha c.hexsha file = Except.ok s) :
    (statusToken s = "R" → processFile oracle prevSha c file st =
      Except.ok (mkRecord c file "Renamed" (PyVal.int 0) (PyVal.int 0),
        ⟨Option.some (PyVal.int 0), Option.some (PyVal.int 0)⟩)) ∧
    (statusToken s = "T" → processFile oracle prevSha c file st =
      Except.ok (mkRecord c file "Type (mode) changed" (PyVal.int 0) (PyVal.int 0),
        ⟨Option.some (PyVal.int 0), Option.some (PyVal.int 0)⟩)) ∧
    (statusToken s = "U" → processFile oracle prevSha c file st =
      Except.ok (mkRecord c file "Unmerged" (PyVal.int 0) (PyVal.int 0),
        ⟨Option.some (PyVal.int 0), Option.some (PyVal.int 0)⟩)) ∧
    (statusToken s = "X" → processFile oracle prevSha c file st =
      Except.ok (mkRecord c file "Unknown" PyVal.none PyVal.none,
        ⟨Option.some PyVal.none, Option.some PyVal.none⟩)) ∧
    (statusToken s = "B" → processFile oracle prevSha c file st =
      Except.ok (mkRecord c file "Broken pairing" PyVal.none PyVal.none,
        ⟨Option.some PyVal.none, Option.some PyVal.none⟩)) := by
  refine ⟨?_, ?_, ?_, ?_, ?_⟩ <;>
    · intro htok
      unfold processFile
      rw [classifyFile_ok_token hs, htok]
      rfl

def oracleC7 : GitOracle :=
  ⟨fun _ _ _ => Except.ok "R\told.py\tnew.py", fun _ _ _ => Except.ok ""⟩

def commitC7 : Commit := ⟨"c7", [], "u", "u@x", 0, "m", ["new.py"]⟩

/-- C7 witness: a concrete renamed file is emitted with status "Renamed"
and zero/zero counts. -/
theorem fixed_count_statuses_witness :
    processFile oracleC7 "p0" commitC7 "new.py" ⟨Option.none, Option.none⟩ =
      Except.ok (mkRecord commitC7 "new.py" "Renamed" (PyVal.int 0) (PyVal.int 0),
        ⟨Option.some (PyVal.int 0), Option.some (PyVal.int 0)⟩) :=
  (fixed_count_statuses oracleC7 "p0" commitC7 "new.py"
    ⟨Option.none, Option.none⟩ "R\told.py\tnew.py" rfl).1 rfl

/-- C8: for every sequence of records, including the empty one, and in
both formatting modes, the writer emits the opening bracket before the
first record and the closing bracket after the last, with exactly one
separating comma (plus a newline in debug mode) between consecutive
records and never a leading or trailing comma — the output is the records
joined by single separators inside one bracket pair. -/
theorem writer_emits_wellformed_array (debug : Bool) (recs : List String) :
    writeArray debug recs =
      "[" ++ (if debug then "\n" else "")
        ++ joinSep (if debug then ",\n" else ",") recs
        ++ (if debug then "\n" else "") ++ "]" ++ (if debug then "\n" else "") := by
  unfold writeArray
  rw [writeLoop_true_join]

def oracleC9 : GitOracle :=
  ⟨fun _ _ _ => Except.ok "A\tx", fun _ _ _ => Except.ok "1\t0\tx"⟩

def commitC9 : Commit := ⟨"c9", [], "u", "u@x", 0, "m", ["README", "a.TXT"]⟩

/-- C9 counterexample: the emitted extension for "README" (a base name
with no extension) is ".README", not the empty string, and for "a.TXT" it
is ".TXT", not the lower-cased ".txt". -/
theorem extension_field_counterexample :
    run oracleC9 [commitC9] =
      Except.ok ([mkRecord commitC9 "README" "Added" (PyVal.int 1) (PyVal.int 0),
                  mkRecord commitC9 "a.TXT" "Added" (PyVal.int 1) (PyVal.int 0)],
        ⟨Option.some (PyVal.int 1), Option.some (PyVal.int 0)⟩) ∧
    (mkRecord commitC9 "README" "Added" (PyVal.int 1) (PyVal.int 0)).extension = ".README" ∧
    (mkRecord commitC9 "a.TXT" "Added" (PyVal.int 1) (PyVal.int 0)).extension = ".TXT" ∧
    (".README" : String) ≠ "" ∧ (".TXT" : String) ≠ ".txt" := by
  refine ⟨rfl, rfl, rfl, ?_, ?_⟩ <;> decide

/-- C9 (amended): every emitted record's extension field is "." followed
by the last dot-separated component of the modified path's base name,
case preserved and never empty — a dotless base name yields "." followed
by the whole base name rather than the empty string. -/
theorem extension_field_shape (oracle : GitOracle) (prevSha : String) (c : Commit)
    (file : String) (st : RunState) (rec : ChangeRecord) (st2 : RunState)
    (h : processFile oracle prevSha c file st = Except.ok (rec, st2)) :
    rec.extension = "." ++ (splitChar '.' (basename rec.modified)).getLastD "" ∧
      rec.extension ≠ "" := by
  obtain ⟨_, hmod, hext, _, _, _⟩ := processFile_ok_fields h
  constructor
  · rw [hext, hmod]
    rfl
  · rw [hext]
    unfold fileExtension
    intro hcontra
    have hlen : ("." ++ (splitChar '.' (basename file)).getLastD "").length = (0 : Nat) := by
      rw [hcontra]
      rfl
    rw [String.length_append] at hlen
    have h1 : (".").length = 1 := rfl
    omega

def oracleC9w : GitOracle :=
  ⟨fun _ _ _ => Except.ok "A\tnotes", fun _ _ _ => Except.ok "1\t0\tnotes"⟩

def commitC9w : Commit := ⟨"c9w", [], "u", "u@x", 0, "m", ["notes"]⟩

/-- C9 witness: the record for the dotless path "notes" concretely has
extension ".notes", matching the shape and nonempty. -/
theorem extension_field_shape_witness :
    (mkRecord commitC9w "notes" "Added" (PyVal.int 1) (PyVal.int 0)).extension =
        "." ++ (splitChar '.'
          (basename (mkRecord commitC9w "notes" "Added"
            (PyVal.int 1) (PyVal.int 0)).modified)).getLastD "" ∧
      (mkRecord commitC9w "notes" "Added" (PyVal.int 1) (PyVal.int 0)).extension ≠ "" :=
  extension_field_shape oracleC9w EMPTY_TREE_SHA commitC9w "notes"
    ⟨Option.none, Option.none⟩ _ ⟨Option.some (PyVal.int 1), Option.some (PyVal.int 0)⟩ rfl

/-- C10: a name-status token outside the handled set falls through the
classification chain: the record is emitted with the raw token as its
status and with the loop-carried count values left over from the
previously processed file (loop states after an emission are always
post-coercion values, per the C6 invariant); if the stat variable was
never bound — which happens exactly on the first file processed — the
dumps call instead fails with an unbound-variable error and no record is
emitted. -/
theorem unhandled_status_falls_through (oracle : GitOracle) (prevSha : String) (c : Commit)
    (file : String) (st : RunState) (s : String)
    (hs : oracle.nameStatus prevSha c.hexsha file = Except.ok s)
    (hne : statusToken s ∉ (["", "A", "C", "D", "M", "R", "T", "U", "X", "B"] : List String)) :
    (∀ va vb, st.la = Option.some va → st.lr = Option.some vb →
      coerced va = true → coerced vb = true →
      processFile oracle prevSha c file st =
        Except.ok (mkRecord c file (statusToken s) va vb,
          ⟨Option.some va, Option.some vb⟩)) ∧
    (st.la = Option.none →
      processFile oracle prevSha c file st = Except.error (Fatal.unbound "lines_added")) := by
  simp only [List.mem_cons, List.not_mem_nil, or_false, not_or] at hne
  obtain ⟨h0, hA, hC, hD, hM, hR, hT, hU, hX, hB⟩ := hne
  have hclass : classifyFile oracle prevSha c file st =
      Except.ok (statusToken s, st.la, st.lr) := by
    rw [classifyFile_ok_token hs]
    unfold classifyToken
    rw [if_neg h0, if_neg hA, if_neg hC, if_neg hD, if_neg hM, if_neg hR, if_neg hT,
      if_neg hU, if_neg hX, if_neg hB]
  constructor
  · intro va vb hva hvb hca hcb
    unfold processFile
    rw [hclass]
    show emitCheck c file (statusToken s) (tryInt st.la) (tryInt st.lr) = _
    rw [hva, hvb, tryInt_of_coerced va hca, tryInt_of_coerced vb hcb]
    rfl
  · intro hva
    unfold processFile
    rw [hclass]
    show emitCheck c file (statusToken s) (tryInt st.la) (tryInt st.lr) = _
    rw [hva]
    rfl

def oracleC10 : GitOracle :=
  ⟨fun _ _ _ => Except.ok "R100\told.py\tnew.py", fun _ _ _ => Except.ok ""⟩

def commitC10 : Commit := ⟨"c10", [], "u", "u@x", 0, "m", ["new.py"]⟩

/-- C10 witness: a similarity-scored rename token "R100" concretely
produces a record whose status is the raw "R100" and whose counts are the
leftover values 5 and 7 from the previous file. -/
theorem unhandled_status_falls_through_witness :
    processFile oracleC10 "p0" commitC10 "new.py"
        ⟨Option.some (PyVal.int 5), Option.some (PyVal.int 7)⟩ =
      Except.ok (mkRecord commitC10 "new.py" "R100" (PyVal.int 5) (PyVal.int 7),
        ⟨Option.some (PyVal.int 5), Option.some (PyVal.int 7)⟩) :=
  (unhandled_status_falls_through oracleC10 "p0" commitC10 "new.py"
    ⟨Option.some (PyVal.int 5), Option.some (PyVal.int 7)⟩ "R100\told.py\tnew.py"
    rfl (by decide)).1 (PyVal.int 5) (PyVal.int 7) rfl rfl rfl rfl

end GitLogJson
